import Mathlib

/-!
Verification of the filmalize conversion-job core.

The definitions below are a shallow embedding of src/filmalize/models.py
(classes Stream, SubtitleFile, Container) and of the progress-polling code
in src/filmalize/cli.py (get_progress and the convert poll loop).
Python numbers are modelled as Int (Rat for the float duration), optional
attributes as Option, Python truthiness of optional numbers by the helper
truthy, and raised exceptions as Except / Option results.
-/

namespace Filmalize

/-! Constants from src/filmalize/defaults.py. -/

def FFMPEG : String := "/usr/bin/ffmpeg"

def ENDING : String := ".mp4"

def C_AUDIO : String := "aac"

def C_VIDEO : String := "h264"

def C_SUBS : String := "mov_text"

def BITRATE : Int := 384

def CRF : Int := 18

/-! Decimal rendering of integers, as Python str does for int values. -/

def natStrAux : Nat → Nat → List Char
  | 0, _ => []
  | fuel + 1, n =>
    if n < 10 then [Nat.digitChar n]
    else natStrAux fuel (n / 10) ++ [Nat.digitChar (n % 10)]

def natStr (n : Nat) : String :=
  ⟨natStrAux (n + 1) n⟩

def intStr (i : Int) : String :=
  if i < 0 then "-" ++ natStr i.natAbs else natStr i.toNat

/-- Python truthiness of an optional numeric attribute: None and 0 are
falsy, every other value is truthy. -/
def truthy : Option Int → Bool
  | none => false
  | some v => v != 0

/-! Parsing of Python int literals, as the int builtin accepts them from a
string: surrounding whitespace, an optional sign, then a nonempty digit
run in which single underscores may separate digits. -/

def digitsVal (l : List Char) : Nat :=
  l.foldl (fun a c => a * 10 + (c.toNat - 48)) 0

def okRunFrom : List Char → Bool
  | [] => true
  | '_' :: rest =>
    match rest with
    | c :: rest2 => c.isDigit && okRunFrom rest2
    | [] => false
  | c :: rest => c.isDigit && okRunFrom rest

/-- A valid Python int digit run: digits, with single underscores allowed
only strictly between digits. -/
def okRun : List Char → Bool
  | [] => false
  | c :: rest => c.isDigit && okRunFrom rest

/-- Strip leading and trailing whitespace, as int() does before parsing. -/
def pyStrip (l : List Char) : List Char :=
  ((l.dropWhile Char.isWhitespace).reverse.dropWhile Char.isWhitespace).reverse

def pyInt (s : String) : Option Int :=
  match pyStrip s.data with
  | [] => none
  | c :: rest =>
    if c = '-' then
      if okRun rest then some (-(digitsVal (rest.filter (fun x => x ≠ '_')) : Int)) else none
    else if c = '+' then
      if okRun rest then some ((digitsVal (rest.filter (fun x => x ≠ '_')) : Int)) else none
    else
      if okRun (c :: rest) then
        some ((digitsVal ((c :: rest).filter (fun x => x ≠ '_')) : Int))
      else none

/-! Path helpers mirroring pathlib.PurePath.stem, os.path.dirname and
os.path.join for POSIX paths, which models.py uses for the default output
name and the output path. -/

def rfindChar (l : List Char) (c : Char) : Option Nat :=
  match l.reverse.findIdx? (fun x => x = c) with
  | none => none
  | some j => some (l.length - 1 - j)

/-- Python str.split on a single separator character: splits at every
occurrence, keeping empty fields, and yields one (empty) field for the
empty string. -/
def pySplitChar (sep : Char) : List Char → List (List Char)
  | [] => [[]]
  | c :: rest =>
    let r := pySplitChar sep rest
    if c = sep then [] :: r
    else
      match r with
      | h :: t => (c :: h) :: t
      | [] => [[c]]

/-- The =-separated fields of a progress-feed line, as line.split yields
them. -/
def lineFields (line : String) : List String :=
  (pySplitChar '=' line.data).map (fun cs => ⟨cs⟩)

def pathName (p : String) : String :=
  ((pySplitChar '/' p.data).map (fun cs => (⟨cs⟩ : String))).getLastD ""

def pathStem (p : String) : String :=
  let name := pathName p
  match rfindChar name.data '.' with
  | none => name
  | some i => if 0 < i ∧ i < name.length - 1 then ⟨name.data.take i⟩ else name

def default_name (file_name : String) : String :=
  pathStem file_name ++ ENDING

def pyDirname (p : String) : String :=
  match rfindChar p.data '/' with
  | none => ""
  | some i =>
    let head : List Char := p.data.take (i + 1)
    if head.all (fun c => c = '/') then ⟨head⟩
    else ⟨(head.reverse.dropWhile (fun c => c = '/')).reverse⟩

def pyJoin (d f : String) : String :=
  if f.data.head? = some '/' then f
  else if d = "" then f
  else if d.data.getLast? = some '/' then d ++ f
  else d ++ "/" ++ f

/-! The data model: StreamLabel, Stream, SubtitleFile, Container. -/

structure StreamLabel where
  title : String
  bitrate : Option Int
  resolution : String
  language : String
  channels : String
  dflt : String
deriving DecidableEq

def emptyLabel : StreamLabel := ⟨"", none, "", "", "", ""⟩

structure Stream where
  index : Int
  type : String
  codec : String
  custom_crf : Option Int
  custom_bitrate : Option Int
  labels : StreamLabel
  option_summary : Option String
deriving DecidableEq

/-- Stream.build_options from models.py: returns the ffmpeg option tokens
for this stream at the given per-kind output number, together with the
stream as mutated by the method (its option_summary is overwritten on the
three supported kinds; on any other kind the options are empty and the
stream is untouched). -/
def Stream.build_options (s : Stream) (number : Int) : List String × Stream :=
  if s.type = "video" then
    if truthy s.custom_crf || s.codec != C_VIDEO then
      let crf : Int := if truthy s.custom_crf then s.custom_crf.getD CRF else CRF
      (["-c:v:" ++ intStr number, "libx264", "-preset", "slow", "-crf", intStr crf,
        "-pix_fmt", "yuv420p"],
       { s with option_summary := some ("transcode -> " ++ C_VIDEO ++ ", crf=" ++ intStr crf) })
    else
      (["-c:v:" ++ intStr number, "copy"], { s with option_summary := some "copy" })
  else if s.type = "audio" then
    if truthy s.custom_bitrate || s.codec != C_AUDIO then
      let bitrate : Int :=
        if truthy s.custom_bitrate then s.custom_bitrate.getD BITRATE
        else if truthy s.labels.bitrate then s.labels.bitrate.getD BITRATE
        else BITRATE
      let summ := "transcode -> " ++ C_AUDIO ++ ", bitrate=" ++ intStr bitrate ++ "Kib/s"
      (["-c:a:" ++ intStr number, C_AUDIO, "-b:a:" ++ intStr number, intStr bitrate ++ "k"],
       { s with option_summary := some summ })
    else
      (["-c:a:" ++ intStr number, "copy"], { s with option_summary := some "copy" })
  else if s.type = "subtitle" then
    (["-c:s:" ++ intStr number, C_SUBS],
     { s with option_summary := some ("transcode -> " ++ C_SUBS) })
  else ([], s)

structure SubtitleFile where
  file_name : String
  encoding : String
deriving DecidableEq

/-- SubtitleFile.options as set by its constructor in models.py. -/
def SubtitleFile.options (_sub : SubtitleFile) : List String := [C_SUBS]

structure Container where
  file_name : String
  duration : Rat
  streams : List Stream
  subtitle_files : List SubtitleFile
  selected : List Int
  output_name : String
  microseconds : Int
  temp_file_name : String
deriving DecidableEq

/-- Container.default_streams from models.py: walks streams in list order,
collecting the index of the first audio stream and of the first video
stream as they are encountered. The two Bool flags mirror the local
variables audio and video of the Python loop. -/
def default_streams_loop : List Stream → Bool → Bool → List Int
  | [], _, _ => []
  | s :: rest, audio, video =>
    if !audio && (s.type == "audio") then s.index :: default_streams_loop rest true video
    else if !video && (s.type == "video") then s.index :: default_streams_loop rest audio true
    else default_streams_loop rest audio video

def default_streams (streams : List Stream) : List Int :=
  default_streams_loop streams false false

/-- Python int truncation of a nonnegative-or-negative rational, as int()
applied to duration * 1000000 in the Container constructor. -/
def pyTrunc (q : Rat) : Int :=
  if 0 ≤ q then q.floor else q.ceil

/-- The Container constructor from models.py. The optional arguments are
passed as Option values; Python treats an explicit empty list or empty
string exactly like an omitted argument because the defaulting tests are
truthiness tests. -/
def Container.init (file_name : String) (duration : Rat) (streams : List Stream)
    (subtitle_files : Option (List SubtitleFile)) (selected : Option (List Int))
    (output_name : Option String) (temp_file_name : String) : Container :=
  let subs := match subtitle_files with
    | none => []
    | some l => l
  let out := match output_name with
    | none => default_name file_name
    | some s => if s = "" then default_name file_name else s
  let sel := match selected with
    | none => default_streams streams
    | some l => if l = [] then default_streams streams else l
  { file_name := file_name
    duration := duration
    streams := streams
    subtitle_files := subs
    selected := sel
    output_name := out
    microseconds := pyTrunc (duration * 1000000)
    temp_file_name := temp_file_name }

/-! Command compilation: Container.build_command from models.py. -/

/-- The per-kind output-stream counters, mirroring the stream_number dict
of build_command. Lookup of any other kind is a KeyError, modelled as
none. -/
structure Counters where
  video : Int
  audio : Int
  subtitle : Int
deriving DecidableEq

def Counters.get (c : Counters) (t : String) : Option Int :=
  if t = "video" then some c.video
  else if t = "audio" then some c.audio
  else if t = "subtitle" then some c.subtitle
  else none

def Counters.bump (c : Counters) (t : String) : Counters :=
  if t = "video" then { c with video := c.video + 1 }
  else if t = "audio" then { c with audio := c.audio + 1 }
  else if t = "subtitle" then { c with subtitle := c.subtitle + 1 }
  else c

/-- The per-stream options loop of build_command. The Python code iterates
over output_streams, the selected members of self.streams in list order,
mutating each compiled stream; here the full streams list is walked,
compiling the selected members and keeping the rest, which yields the same
tokens and the same final list of (mutated) streams. A selected stream of
an unsupported kind is a KeyError on the stream_number dict, modelled as
none. -/
def compileStreams : List Stream → List Int → Counters →
    Option (List String × List Stream × Counters)
  | [], _, cnt => some ([], [], cnt)
  | s :: rest, sel, cnt =>
    if s.index ∈ sel then
      match Counters.get cnt s.type with
      | none => none
      | some n =>
        match compileStreams rest sel (Counters.bump cnt s.type) with
        | none => none
        | some (toks, strs, cnt2) =>
          some ((s.build_options n).1 ++ toks, (s.build_options n).2 :: strs, cnt2)
    else
      match compileStreams rest sel cnt with
      | none => none
      | some (toks, strs, cnt2) => some (toks, s :: strs, cnt2)

/-- The trailing subtitle-codec loop of build_command, continuing the
subtitle counter left by the stream loop. -/
def subtitleCodecTokens : List SubtitleFile → Int → List String
  | [], _ => []
  | sub :: rest, n =>
    ("-c:s:" ++ intStr n) :: (sub.options ++ subtitleCodecTokens rest (n + 1))

/-- Container.build_command from models.py. Returns the command token list
together with the container as left by the call (the selected streams have
their option_summary overwritten); none models the KeyError raised when a
selected stream has an unsupported kind. -/
def Container.build_command (c : Container) : Option (List String × Container) :=
  let base := [FFMPEG, "-nostdin", "-progress", c.temp_file_name, "-v", "error", "-y", "-i",
               c.file_name]
  let subInputs := (c.subtitle_files.map
    (fun sub => ["-sub_charenc", sub.encoding, "-i", sub.file_name])).flatten
  let maps := (c.selected.map (fun i => ["-map", "0:" ++ intStr i])).flatten
  let subMaps := ((List.range c.subtitle_files.length).map
    (fun i => ["-map", intStr ((i : Int) + 1) ++ ":0"])).flatten
  match compileStreams c.streams c.selected ⟨0, 0, 0⟩ with
  | none => none
  | some (streamToks, streams2, cnt) =>
    let subCodecs := subtitleCodecTokens c.subtitle_files cnt.subtitle
    let outPath := pyJoin (pyDirname c.file_name) c.output_name
    some (base ++ subInputs ++ maps ++ subMaps ++ streamToks ++ subCodecs ++ [outPath],
          { c with streams := streams2 })

/-! Selection validation: Container.acceptable_streams from models.py, and
the stream-selection prompt flow of cli.py which only assigns
container.selected after validation succeeds. -/

/-- The streams_dict property: a dict keyed by stream index, in which a
later stream with a duplicate index overwrites an earlier one. -/
def streams_dict_get (streams : List Stream) (i : Int) : Option Stream :=
  streams.reverse.find? (fun s => s.index = i)

def acceptableLoop (streams : List Stream) : List Int → Except String Bool
  | [] => Except.ok true
  | i :: rest =>
    match streams_dict_get streams i with
    | none =>
      Except.error ("This contaner does not contain a stream with index " ++ intStr i)
    | some s =>
      if s.type = "audio" ∨ s.type = "video" ∨ s.type = "subtitle" then
        acceptableLoop streams rest
      else Except.error ("filmalize cannot output streams of type " ++ s.type)

def Container.acceptable_streams (c : Container) (index_list : List Int) :
    Except String Bool :=
  acceptableLoop c.streams index_list

/-- The selection edit of cli.py (SelectedStreams.convert followed by
select_streams): the requested list is validated with acceptable_streams
and only assigned to container.selected when validation succeeds; a
rejected list leaves the container untouched. -/
def select_streams_apply (c : Container) (l : List Int) : Container :=
  match c.acceptable_streams l with
  | Except.ok _ => { c with selected := l }
  | Except.error _ => c

/-! Progress reading: the Container.progress property of models.py and the
get_progress / convert poll loop of cli.py. The progress feed is given as
the list of lines of the temp file. -/

inductive ReadErr where
  | noProgress
  | indexError
deriving DecidableEq

/-- The reverse line scan shared by Container.progress (models.py) and
get_progress (cli.py): the input here is already reversed. A line whose
first =-separated field is out_time_ms is parsed with int; a parse failure
is NoProgressError; a bare out_time_ms line without = raises an uncaught
IndexError; if no such line exists the scan returns 0. -/
def progressScan : List String → Except ReadErr Int
  | [] => Except.ok 0
  | line :: rest =>
    match lineFields line with
    | [] => progressScan rest
    | key :: vrest =>
      if key = "out_time_ms" then
        match vrest with
        | v :: _ =>
          match pyInt v with
          | some n => Except.ok n
          | none => Except.error ReadErr.noProgress
        | [] => Except.error ReadErr.indexError
      else progressScan rest

def progressRead (lines : List String) : Except ReadErr Int :=
  progressScan lines.reverse

/-- The uncaught exceptions that can escape one iteration of the convert
poll loop in cli.py. -/
inductive PyErr where
  | attrError
  | indexError
  | noProgress
  | progressFinished
deriving DecidableEq

/-- One iteration of the convert poll loop of cli.py for one container,
still identified by a job id inside the running list. stillRunning is the
poll() result of the process. On a successful read, get_progress then
executes container.progress = microsec, an assignment to a read-only
property, an uncaught AttributeError. On NoProgressError the handler
writes a warning and removes the job from running, and its subsequent
progress re-read raises NoProgressError again, uncaught. On
ProgressFinishedError the handler removes the job and the re-read raises
ProgressFinishedError again, uncaught. A bare out_time_ms line raises an
uncaught IndexError. The result is the final running list, whether the
warning was written, and the uncaught exception if any. -/
def convert_tick (running : List Nat) (j : Nat) (stillRunning : Bool)
    (feed : List String) : (List Nat × Bool) × Option PyErr :=
  if stillRunning then
    match progressRead feed with
    | Except.ok _ => ((running, false), some PyErr.attrError)
    | Except.error ReadErr.noProgress => ((running.erase j, true), some PyErr.noProgress)
    | Except.error ReadErr.indexError => ((running, false), some PyErr.indexError)
  else ((running.erase j, false), some PyErr.progressFinished)

/-! A small extractor over compiled commands: the tokens referenced by the
stream-selection directives, each being the token following a -map
token. -/

def mapRefs : List String → List String
  | [] => []
  | t :: rest =>
    if t = "-map" then
      match rest with
      | [] => []
      | x :: rest2 => x :: mapRefs rest2
    else mapRefs rest

/-! Concrete fixtures used by counterexamples and witnesses. -/

def sAudioVorbis : Stream := ⟨1, "audio", "vorbis", none, none, emptyLabel, none⟩

def sVideoVp8 : Stream := ⟨0, "video", "vp8", none, none, emptyLabel, none⟩

/-- A container built from a probe document that reports its audio stream
(index 1) before its video stream (index 0), with the default
selection. -/
def cOutOfOrder : Container :=
  Container.init "f.mkv" 10 [sAudioVorbis, sVideoVp8] none none none "tmp"

/-! Facts about the decimal rendering of integers. -/

theorem digitChar_isDigit (n : Nat) (h : n < 10) : (Nat.digitChar n).isDigit = true := by
  interval_cases n <;> decide

theorem natStrAux_digits (fuel : Nat) :
    ∀ n c, c ∈ natStrAux fuel n → c.isDigit = true := by
  induction fuel with
  | zero => intro n c hc; simp [natStrAux] at hc
  | succ f ih =>
    intro n c hc
    by_cases h10 : n < 10
    · simp [natStrAux, h10] at hc
      rw [hc]
      exact digitChar_isDigit n h10
    · simp [natStrAux, h10] at hc
      rcases hc with hc | hc
      · exact ih _ _ hc
      · rw [hc]
        exact digitChar_isDigit _ (Nat.mod_lt _ (by omega))

theorem mem_natStr_digit (n : Nat) (c : Char) (hc : c ∈ (natStr n).data) :
    c.isDigit = true :=
  natStrAux_digits (n + 1) n c hc

theorem intStr_ne_map (i : Int) : intStr i ≠ "-map" := by
  unfold intStr
  split
  · intro h
    have h2 := congrArg String.data h
    rw [String.data_append] at h2
    have h3 : (natStr i.natAbs).data = ['m', 'a', 'p'] := by
      have hminus : ("-" : String).data = ['-'] := rfl
      rw [hminus] at h2
      have hmap : ("-map" : String).data = ['-', 'm', 'a', 'p'] := rfl
      rw [hmap] at h2
      simpa using h2
    have hm : ('m' : Char) ∈ (natStr i.natAbs).data := by rw [h3]; simp
    have := mem_natStr_digit _ _ hm
    exact absurd this (by decide)
  · intro h
    have hm : ('-' : Char) ∈ (natStr i.toNat).data := by
      rw [h]
      decide
    have := mem_natStr_digit _ _ hm
    exact absurd this (by decide)

theorem len5_ne_map (p s : String) (h : p.length = 5) : p ++ s ≠ "-map" := by
  intro he
  have h2 := congrArg String.length he
  rw [String.length_append, h] at h2
  have h4 : ("-map" : String).length = 4 := rfl
  omega

theorem suffix_k_ne_map (x : String) : x ++ "k" ≠ "-map" := by
  intro h
  have h2 := congrArg String.data h
  rw [String.data_append] at h2
  have hk : ("k" : String).data = ['k'] := rfl
  have hmap : ("-map" : String).data = ['-', 'm', 'a', 'p'] := rfl
  rw [hk, hmap] at h2
  have h3 := congrArg List.getLast? h2
  rw [List.getLast?_concat] at h3
  simp at h3

/-! Facts about the mapRefs extractor. -/

theorem mapRefs_cons_ne (t : String) (rest : List String) (h : ¬ t = "-map") :
    mapRefs (t :: rest) = mapRefs rest := by
  rw [mapRefs.eq_def]
  simp only [if_neg h]

theorem mapRefs_append_left (a b : List String) (h : "-map" ∉ a) :
    mapRefs (a ++ b) = mapRefs b := by
  induction a with
  | nil => rfl
  | cons t a ih =>
    rw [List.mem_cons] at h
    push_neg at h
    rw [List.cons_append, mapRefs_cons_ne t _ (fun he => h.1 he.symm)]
    exact ih h.2

theorem mapRefs_eq_nil (a : List String) (h : "-map" ∉ a) : mapRefs a = [] := by
  have := mapRefs_append_left a [] h
  simpa using this

theorem mapRefs_pair (r : String) (rest : List String) :
    mapRefs ("-map" :: r :: rest) = r :: mapRefs rest := by
  simp [mapRefs]

theorem mapRefs_flat_pairs (refs : List String) (b : List String) :
    mapRefs ((refs.map (fun r => ["-map", r])).flatten ++ b) = refs ++ mapRefs b := by
  induction refs with
  | nil => simp
  | cons r refs ih =>
    simp only [List.map_cons, List.flatten_cons, List.append_assoc, List.cons_append,
      List.nil_append]
    rw [mapRefs_pair]
    simp only [List.append_assoc] at ih
    rw [ih]

/-! The tokens contributed by the per-stream and subtitle-codec sections
never contain a -map token. -/

theorem build_options_no_map (s : Stream) (n : Int) : "-map" ∉ (s.build_options n).1 := by
  unfold Stream.build_options
  split
  · split
    · intro hmem
      simp only [List.mem_cons, List.not_mem_nil, or_false] at hmem
      rcases hmem with h | h | h | h | h | h | h | h <;>
        first
          | exact len5_ne_map "-c:v:" _ rfl h.symm
          | exact intStr_ne_map _ h.symm
          | exact absurd h (by decide)
    · intro hmem
      simp only [List.mem_cons, List.not_mem_nil, or_false] at hmem
      rcases hmem with h | h
      · exact len5_ne_map "-c:v:" _ rfl h.symm
      · exact absurd h (by decide)
  · split
    · split
      · intro hmem
        simp only [List.mem_cons, List.not_mem_nil, or_false] at hmem
        rcases hmem with h | h | h | h <;>
          first
            | exact len5_ne_map "-c:a:" _ rfl h.symm
            | exact len5_ne_map "-b:a:" _ rfl h.symm
            | exact suffix_k_ne_map _ h.symm
            | exact absurd h (by decide)
      · intro hmem
        simp only [List.mem_cons, List.not_mem_nil, or_false] at hmem
        rcases hmem with h | h
        · exact len5_ne_map "-c:a:" _ rfl h.symm
        · exact absurd h (by decide)
    · split
      · intro hmem
        simp only [List.mem_cons, List.not_mem_nil, or_false] at hmem
        rcases hmem with h | h
        · exact len5_ne_map "-c:s:" _ rfl h.symm
        · exact absurd h (by decide)
      · simp

theorem compileStreams_no_map (streams : List Stream) :
    ∀ sel cnt toks strs cnt2,
      compileStreams streams sel cnt = some (toks, strs, cnt2) → "-map" ∉ toks := by
  induction streams with
  | nil =>
    intro sel cnt toks strs cnt2 h
    simp [compileStreams] at h
    rw [h.1]
    simp
  | cons s rest ih =>
    intro sel cnt toks strs cnt2 h
    rw [compileStreams] at h
    by_cases hs : s.index ∈ sel
    · rw [if_pos hs] at h
      cases hget : Counters.get cnt s.type with
      | none => rw [hget] at h; simp at h
      | some n =>
        rw [hget] at h
        cases hrec : compileStreams rest sel (cnt.bump s.type) with
        | none => rw [hrec] at h; simp at h
        | some r =>
          obtain ⟨toks3, strs3, cnt3⟩ := r
          rw [hrec] at h
          simp only [Option.some.injEq, Prod.mk.injEq] at h
          rw [← h.1]
          intro hmem
          rcases List.mem_append.mp hmem with hmem | hmem
          · exact build_options_no_map s n hmem
          · exact ih sel (cnt.bump s.type) toks3 strs3 cnt3 hrec hmem
    · rw [if_neg hs] at h
      cases hrec : compileStreams rest sel cnt with
      | none => rw [hrec] at h; simp at h
      | some r =>
        obtain ⟨toks3, strs3, cnt3⟩ := r
        rw [hrec] at h
        simp only [Option.some.injEq, Prod.mk.injEq] at h
        rw [← h.1]
        exact ih sel cnt toks3 strs3 cnt3 hrec

theorem subtitleCodecTokens_no_map (subs : List SubtitleFile) :
    ∀ n, "-map" ∉ subtitleCodecTokens subs n := by
  induction subs with
  | nil => intro n; simp [subtitleCodecTokens]
  | cons sub rest ih =>
    intro n
    simp only [subtitleCodecTokens, SubtitleFile.options]
    intro hmem
    simp only [List.mem_cons, List.cons_append, List.nil_append] at hmem
    rcases hmem with h | h | h
    · exact len5_ne_map "-c:s:" _ rfl h.symm
    · simp [C_SUBS] at h
    · exact ih (n + 1) h

/-- Claim C1 is false on the code: build_command emits the -map directives
in the insertion order of the selected list, not in ascending numeric
order. For a container built from a probe document that reports the audio
stream (index 1) before the video stream (index 0), the default selection
is [1, 0] and the -map directives reference 0:1 then 0:0, which is not
ascending. -/
theorem c1_counterexample :
    cOutOfOrder.build_command.map (fun p => mapRefs p.1) = some ["0:1", "0:0"]
    ∧ cOutOfOrder.selected = [1, 0]
    ∧ ["0:1", "0:0"] ≠ ["0:0", "0:1"] :=
  ⟨rfl, rfl, by decide⟩

/-- Claim C1, amended: the -map stream-selection directives of
build_command reference the selected stream indexes in the insertion
order of the selected list (for a default selection, the order in which
the first audio and first video stream are encountered in the streams
list), not in ascending numeric order; they are followed by one -map
directive per subtitle attachment. The extractor hypotheses only rule out
degenerate containers whose free-form strings are themselves the -map
token. -/
theorem c1_map_directives_follow_selection (c : Container) (p : List String × Container)
    (h : c.build_command = some p)
    (htmp : c.temp_file_name ≠ "-map") (hfile : c.file_name ≠ "-map")
    (hsubs : ∀ sub ∈ c.subtitle_files, sub.encoding ≠ "-map" ∧ sub.file_name ≠ "-map")
    (hout : pyJoin (pyDirname c.file_name) c.output_name ≠ "-map") :
    mapRefs p.1 = c.selected.map (fun i => "0:" ++ intStr i)
      ++ (List.range c.subtitle_files.length).map (fun i => intStr ((i : Int) + 1) ++ ":0") := by
  simp only [Container.build_command] at h
  cases hcs : compileStreams c.streams c.selected ⟨0, 0, 0⟩ with
  | none => rw [hcs] at h; simp at h
  | some r =>
    obtain ⟨streamToks, streams2, cnt⟩ := r
    rw [hcs] at h
    simp only [Option.some.injEq] at h
    have hp1 := congrArg Prod.fst h
    rw [← hp1]
    have hbase : "-map" ∉ [FFMPEG, "-nostdin", "-progress", c.temp_file_name, "-v", "error",
        "-y", "-i", c.file_name] := by
      intro hmem
      simp only [List.mem_cons, List.not_mem_nil, or_false] at hmem
      rcases hmem with hx | hx | hx | hx | hx | hx | hx | hx | hx <;>
        first
          | exact htmp hx.symm
          | exact hfile hx.symm
          | exact absurd hx (by decide)
    have hsubIn : "-map" ∉ (c.subtitle_files.map
        (fun sub => ["-sub_charenc", sub.encoding, "-i", sub.file_name])).flatten := by
      intro hmem
      rw [List.mem_flatten] at hmem
      obtain ⟨l, hl, hml⟩ := hmem
      rw [List.mem_map] at hl
      obtain ⟨sub, hsub, rfl⟩ := hl
      simp only [List.mem_cons, List.not_mem_nil, or_false] at hml
      rcases hml with hx | hx | hx | hx <;>
        first
          | exact (hsubs sub hsub).1 hx.symm
          | exact (hsubs sub hsub).2 hx.symm
          | exact absurd hx (by decide)
    have htail : "-map" ∉ streamToks ++ (subtitleCodecTokens c.subtitle_files cnt.subtitle
        ++ [pyJoin (pyDirname c.file_name) c.output_name]) := by
      intro hmem
      rcases List.mem_append.mp hmem with hx | hx
      · exact compileStreams_no_map c.streams c.selected ⟨0, 0, 0⟩ _ _ _ hcs hx
      · rcases List.mem_append.mp hx with hy | hy
        · exact subtitleCodecTokens_no_map c.subtitle_files cnt.subtitle hy
        · simp only [List.mem_singleton] at hy
          exact hout hy.symm
    have hmaps : c.selected.map (fun i => ["-map", "0:" ++ intStr i])
        = (c.selected.map (fun i => "0:" ++ intStr i)).map (fun r => ["-map", r]) := by
      rw [List.map_map]
      rfl
    have hsubMaps : (List.range c.subtitle_files.length).map
          (fun i => ["-map", intStr ((i : Int) + 1) ++ ":0"])
        = ((List.range c.subtitle_files.length).map
            (fun i => intStr ((i : Int) + 1) ++ ":0")).map (fun r => ["-map", r]) := by
      rw [List.map_map]
      rfl
    simp only [List.append_assoc]
    rw [mapRefs_append_left _ _ hbase, mapRefs_append_left _ _ hsubIn, hmaps, hsubMaps]
    rw [mapRefs_flat_pairs]
    rw [mapRefs_flat_pairs]
    rw [mapRefs_eq_nil _ htail]
    simp

/-- A container exercising the amended C1 statement: a non-ascending
selection and one subtitle attachment. -/
def cW1 : Container :=
  { file_name := "./f.mkv"
    duration := 10
    streams := [sVideoVp8, sAudioVorbis]
    subtitle_files := [⟨"s.srt", "ascii"⟩]
    selected := [1, 0]
    output_name := "f.mp4"
    microseconds := 10000000
    temp_file_name := "tmp" }

def pW1 : List String × Container := cW1.build_command.getD ([], cW1)

/-- Witness: the amended C1 statement evaluated on cW1. -/
theorem c1_map_directives_witness :
    mapRefs pW1.1 = cW1.selected.map (fun i => "0:" ++ intStr i)
      ++ (List.range cW1.subtitle_files.length).map (fun i => intStr ((i : Int) + 1) ++ ":0") :=
  c1_map_directives_follow_selection cW1 pW1 rfl (by decide) (by decide)
    (by
      intro sub hsub
      have he : cW1.subtitle_files = [⟨"s.srt", "ascii"⟩] := rfl
      rw [he, List.mem_singleton] at hsub
      subst hsub
      exact ⟨by decide, by decide⟩)
    (by decide)

/-! Progress-feed scanning facts shared by C3 and C4. -/

theorem progressScan_append (a b : List String)
    (ha : ∀ l ∈ a, (lineFields l).headD "" ≠ "out_time_ms") :
    progressScan (a ++ b) = progressScan b := by
  induction a with
  | nil => rfl
  | cons l a ih =>
    have hl := ha l (by simp)
    rw [List.cons_append]
    cases hf : lineFields l with
    | nil =>
      simp only [progressScan, hf]
      exact ih (fun x hx => ha x (by simp [hx]))
    | cons key vrest =>
      rw [hf] at hl
      simp only [List.headD_cons] at hl
      simp only [progressScan, hf, if_neg hl]
      exact ih (fun x hx => ha x (by simp [hx]))

/-- Claim C3 is false on the code: when the most recent out_time_ms line
has a malformed value, the scan raises NoProgressError instead of
returning the integer of the most recent well-formed out_time_ms line
found earlier in the feed. -/
theorem c3_counterexample :
    progressRead ["out_time_ms=38193968", "out_time_ms=12abc"]
      = Except.error ReadErr.noProgress
    ∧ (Except.error ReadErr.noProgress : Except ReadErr Int) ≠ Except.ok 38193968 :=
  ⟨rfl, fun h => Except.noConfusion h⟩

/-- Claim C3, amended: the progress read scans the feed lines in reverse
order for the most recent line whose first =-separated field is
out_time_ms. The integer of that line alone is returned; if its value
does not parse as an integer, NoProgressError is raised without
consulting earlier out_time_ms lines; malformed lines after it whose key
is not out_time_ms are skipped; and a feed with no out_time_ms-keyed line
at all yields 0. -/
theorem c3_progress_read_last_key :
    (∀ (pre post : List String) (l : String),
       (lineFields l).headD "" = "out_time_ms" →
       (∀ x ∈ post, (lineFields x).headD "" ≠ "out_time_ms") →
       progressRead (pre ++ l :: post) =
         match lineFields l with
         | _ :: v :: _ =>
           match pyInt v with
           | some n => Except.ok n
           | none => Except.error ReadErr.noProgress
         | _ => Except.error ReadErr.indexError)
    ∧ (∀ lines : List String,
       (∀ x ∈ lines, (lineFields x).headD "" ≠ "out_time_ms") →
       progressRead lines = Except.ok 0) := by
  constructor
  · intro pre post l hl hpost
    unfold progressRead
    rw [List.reverse_append, List.reverse_cons, List.append_assoc]
    rw [progressScan_append _ _ (fun x hx => hpost x (List.mem_reverse.mp hx))]
    rw [List.singleton_append]
    cases hf : lineFields l with
    | nil => rw [hf] at hl; simp at hl
    | cons key vrest =>
      rw [hf] at hl
      simp only [List.headD_cons] at hl
      simp only [progressScan, hf, if_pos hl]
      cases vrest with
      | nil => rfl
      | cons v rest2 => rfl
  · intro lines hlines
    unfold progressRead
    have := progressScan_append lines.reverse []
      (fun x hx => hlines x (List.mem_reverse.mp hx))
    simpa using this

/-- Witness: the amended C3 statement on a feed whose last out_time_ms
line is followed by an unrelated malformed line, and on a feed with no
out_time_ms line. -/
theorem c3_progress_read_witness :
    progressRead (["frame=1"] ++ "out_time_ms=38193968" :: ["bitrate=x"]) = Except.ok 38193968
    ∧ progressRead ["foo=1"] = Except.ok 0 :=
  ⟨c3_progress_read_last_key.1 ["frame=1"] ["bitrate=x"] "out_time_ms=38193968" rfl
      (by decide),
    c3_progress_read_last_key.2 ["foo=1"] (by decide)⟩

/-- Claim C4 is false on the code: on a tick where the feed's most recent
out_time_ms line is unparsable while the process is still running, the
convert loop removes the job from the tracked running list (with a
warning) rather than keeping it for a retry on the next tick. -/
theorem c4_counterexample :
    convert_tick [7] 7 true ["out_time_ms=abc"] = (([], true), some PyErr.noProgress)
    ∧ ([] : List Nat) ≠ [7] :=
  ⟨rfl, by decide⟩

/-- Claim C4, amended: when a poll tick cannot parse the most recent
out_time_ms value of a still-running process, NoProgressError is raised,
the convert loop writes a warning and removes the job from the tracked
running list (one occurrence of it is erased), and the handler then
re-raises NoProgressError out of the loop; the job is not retried on a
next tick. -/
theorem c4_no_progress_removes_job (running : List Nat) (j : Nat) (feed : List String)
    (h : progressRead feed = Except.error ReadErr.noProgress) :
    convert_tick running j true feed = ((running.erase j, true), some PyErr.noProgress)
    ∧ (running.erase j).count j = running.count j - 1 := by
  constructor
  · simp [convert_tick, h]
  · exact List.count_erase_self j running

/-- Witness: the amended C4 statement on a single-job running list and an
unparsable feed. -/
theorem c4_no_progress_removes_job_witness :
    convert_tick [7] 7 true ["out_time_ms=abc"] = (([7].erase 7, true), some PyErr.noProgress)
    ∧ ([7].erase 7).count 7 = [7].count 7 - 1 :=
  c4_no_progress_removes_job [7] 7 ["out_time_ms=abc"] rfl

/-- A video stream with customCrf set to 0, the low end of the documented
crf range. -/
def sC5 : Stream := ⟨0, "video", "vp8", some 0, none, emptyLabel, none⟩

/-- Claim C5 is false on the code: customCrf is tested for truthiness, so
the in-range value 0 behaves as unset and the emitted crf is the default
18, not the set value 0. -/
theorem c5_counterexample :
    sC5.custom_crf = some 0
    ∧ (0 ≤ (0 : Int) ∧ (0 : Int) ≤ 51)
    ∧ (sC5.build_options 0).1
      = ["-c:v:0", "libx264", "-preset", "slow", "-crf", "18", "-pix_fmt", "yuv420p"]
    ∧ ("18" : String) ≠ "0" :=
  ⟨rfl, by decide, rfl, by decide⟩

/-- Claim C5, amended: for a video stream, build_options emits a
transcode directive to the default video codec whose crf equals customCrf
whenever customCrf is set to a nonzero value of its range, and equals the
default crf constant when customCrf is unset (or set to the falsy value
0) and the source codec differs from the default. -/
theorem c5_video_crf_resolution (s : Stream) (n : Int) (h : s.type = "video") :
    (∀ v : Int, s.custom_crf = some v → v ≠ 0 →
       (s.build_options n).1 = ["-c:v:" ++ intStr n, "libx264", "-preset", "slow", "-crf",
         intStr v, "-pix_fmt", "yuv420p"])
    ∧ (truthy s.custom_crf = false → s.codec ≠ C_VIDEO →
       (s.build_options n).1 = ["-c:v:" ++ intStr n, "libx264", "-preset", "slow", "-crf",
         intStr CRF, "-pix_fmt", "yuv420p"]) := by
  obtain ⟨i, t, cd, cc, cb, lb, o⟩ := s
  subst h
  constructor
  · intro v hv hne
    subst hv
    have htr : truthy (some v) = true := by
      simp [truthy, bne_iff_ne]
      exact hne
    simp [Stream.build_options, htr]
  · intro htr hcod
    have hb : (cd != C_VIDEO) = true := by
      simp [bne_iff_ne]
      exact hcod
    simp [Stream.build_options, htr, hb]

/-- Witness: the amended C5 statement on a stream with customCrf 20 and
on a stream with customCrf unset and a non-default codec. -/
theorem c5_video_crf_witness :
    (Stream.build_options ⟨0, "video", "h264", some 20, none, emptyLabel, none⟩ 0).1
      = ["-c:v:" ++ intStr 0, "libx264", "-preset", "slow", "-crf", intStr 20,
         "-pix_fmt", "yuv420p"]
    ∧ (Stream.build_options ⟨0, "video", "vp8", none, none, emptyLabel, none⟩ 1).1
      = ["-c:v:" ++ intStr 1, "libx264", "-preset", "slow", "-crf", intStr CRF,
         "-pix_fmt", "yuv420p"] :=
  ⟨(c5_video_crf_resolution ⟨0, "video", "h264", some 20, none, emptyLabel, none⟩ 0 rfl).1
      20 rfl (by decide),
   (c5_video_crf_resolution ⟨0, "video", "vp8", none, none, emptyLabel, none⟩ 1 rfl).2
      rfl (by decide)⟩

/-- An audio stream with customBitrate set to 0, the low end of the
documented bitrate range. -/
def sC6 : Stream := ⟨2, "audio", "mp3", none, some 0, emptyLabel, none⟩

/-- Claim C6 is false on the code: customBitrate is tested for
truthiness, so the present value 0 behaves as absent and the emitted
bitrate is the default 384, not 0. -/
theorem c6_counterexample :
    sC6.custom_bitrate = some 0
    ∧ (sC6.build_options 0).1 = ["-c:a:0", "aac", "-b:a:0", "384k"]
    ∧ ("384k" : String) ≠ "0k" :=
  ⟨rfl, rfl, by decide⟩

/-- Claim C6, amended: for an audio stream whose compiled action is a
transcode, the emitted target bitrate is the first truthy (present and
nonzero) value of customBitrate, then the probe-reported source bitrate,
then the default bitrate constant; a present-but-zero value is skipped
like an absent one. -/
theorem c6_audio_bitrate_resolution (s : Stream) (n : Int) (h : s.type = "audio") :
    (∀ b : Int, s.custom_bitrate = some b → b ≠ 0 →
       (s.build_options n).1 = ["-c:a:" ++ intStr n, C_AUDIO, "-b:a:" ++ intStr n,
         intStr b ++ "k"])
    ∧ (truthy s.custom_bitrate = false → s.codec ≠ C_AUDIO →
       ∀ r : Int, s.labels.bitrate = some r → r ≠ 0 →
       (s.build_options n).1 = ["-c:a:" ++ intStr n, C_AUDIO, "-b:a:" ++ intStr n,
         intStr r ++ "k"])
    ∧ (truthy s.custom_bitrate = false → truthy s.labels.bitrate = false →
       s.codec ≠ C_AUDIO →
       (s.build_options n).1 = ["-c:a:" ++ intStr n, C_AUDIO, "-b:a:" ++ intStr n,
         intStr BITRATE ++ "k"]) := by
  obtain ⟨i, t, cd, cc, cb, lb, o⟩ := s
  subst h
  refine ⟨?_, ?_, ?_⟩
  · intro b hb hne
    subst hb
    have htr : truthy (some b) = true := by
      simp [truthy, bne_iff_ne]
      exact hne
    simp [Stream.build_options, htr]
  · intro htr hcod r hr hne
    have hb : (cd != C_AUDIO) = true := by
      simp [bne_iff_ne]
      exact hcod
    have hr2 : lb.bitrate = some r := hr
    have htr2 : truthy (some r) = true := by
      simp [truthy, bne_iff_ne]
      exact hne
    have hlb : truthy lb.bitrate = true := by rw [hr2, htr2]
    simp [Stream.build_options, htr, hb, hlb, hr2, htr2]
  · intro htr hlb hcod
    have hb : (cd != C_AUDIO) = true := by
      simp [bne_iff_ne]
      exact hcod
    simp [Stream.build_options, htr, hb, hlb]

/-- Witness: the amended C6 statement on the three presence
combinations. -/
theorem c6_audio_bitrate_witness :
    (Stream.build_options ⟨1, "audio", "aac", none, some 512, emptyLabel, none⟩ 0).1
      = ["-c:a:" ++ intStr 0, C_AUDIO, "-b:a:" ++ intStr 0, intStr 512 ++ "k"]
    ∧ (Stream.build_options ⟨1, "audio", "mp3", none, none,
        ⟨"", some 256, "", "", "", ""⟩, none⟩ 0).1
      = ["-c:a:" ++ intStr 0, C_AUDIO, "-b:a:" ++ intStr 0, intStr 256 ++ "k"]
    ∧ (Stream.build_options ⟨1, "audio", "mp3", none, none, emptyLabel, none⟩ 0).1
      = ["-c:a:" ++ intStr 0, C_AUDIO, "-b:a:" ++ intStr 0, intStr BITRATE ++ "k"] :=
  ⟨(c6_audio_bitrate_resolution ⟨1, "audio", "aac", none, some 512, emptyLabel, none⟩ 0
      rfl).1 512 rfl (by decide),
   (c6_audio_bitrate_resolution ⟨1, "audio", "mp3", none, none,
      ⟨"", some 256, "", "", "", ""⟩, none⟩ 0 rfl).2.1 rfl (by decide) 256 rfl (by decide),
   (c6_audio_bitrate_resolution ⟨1, "audio", "mp3", none, none, emptyLabel, none⟩ 0
      rfl).2.2 rfl rfl (by decide)⟩

/-- Claim C7: acceptable_streams accepts a requested index list exactly
when every index is the streamIndex of some stream of the container
(under the dict semantics, the last stream with that index) whose kind is
audio, video or subtitle; it never requires an audio or video stream to
be present, so empty and subtitle-only selections are accepted; and the
selection edit of the cli only assigns container.selected when validation
succeeds, leaving the container untouched when it rejects. -/
theorem c7_selection_validation (c : Container) (l : List Int) :
    (c.acceptable_streams l = Except.ok true ↔
      ∀ i ∈ l, ∃ s, streams_dict_get c.streams i = some s
        ∧ (s.type = "audio" ∨ s.type = "video" ∨ s.type = "subtitle"))
    ∧ (∀ e, c.acceptable_streams l = Except.error e → select_streams_apply c l = c)
    ∧ (c.acceptable_streams l = Except.ok true →
        select_streams_apply c l = { c with selected := l }) := by
  refine ⟨?_, ?_, ?_⟩
  · unfold Container.acceptable_streams
    induction l with
    | nil => simp [acceptableLoop]
    | cons i rest ih =>
      cases hd : streams_dict_get c.streams i with
      | none =>
        simp only [acceptableLoop, hd]
        constructor
        · intro h
          exact Except.noConfusion h
        · intro h
          obtain ⟨s, hs, _⟩ := h i (by simp)
          rw [hd] at hs
          exact Option.noConfusion hs
      | some s =>
        by_cases hty : s.type = "audio" ∨ s.type = "video" ∨ s.type = "subtitle"
        · simp only [acceptableLoop, hd, if_pos hty]
          rw [ih]
          constructor
          · intro hrest j hj
            rcases List.mem_cons.mp hj with rfl | hj
            · exact ⟨s, hd, hty⟩
            · exact hrest j hj
          · intro hall j hj
            exact hall j (by simp [hj])
        · simp only [acceptableLoop, hd, if_neg hty]
          constructor
          · intro h
            exact Except.noConfusion h
          · intro h
            obtain ⟨s2, hs2, hty2⟩ := h i (by simp)
            rw [hd] at hs2
            injection hs2 with hs2
            rw [hs2] at hty
            exact absurd hty2 hty
  · intro e he
    simp only [select_streams_apply, he]
  · intro hok
    simp only [select_streams_apply, hok]

/-- A container whose only streams are a subtitle stream (index 3) and an
unsupported data stream (index 4). -/
def cW7 : Container :=
  { file_name := "x.mkv"
    duration := 5
    streams := [⟨3, "subtitle", "subrip", none, none, emptyLabel, none⟩,
                ⟨4, "data", "bin", none, none, emptyLabel, none⟩]
    subtitle_files := []
    selected := [3]
    output_name := "x.mp4"
    microseconds := 5000000
    temp_file_name := "t" }

/-- Witness: C7 on concrete selections: a subtitle-only selection is
applied, a missing index and an unsupported kind leave the container
unchanged, and the empty selection validates. -/
theorem c7_selection_validation_witness :
    select_streams_apply cW7 [3] = { cW7 with selected := [3] }
    ∧ select_streams_apply cW7 [9] = cW7
    ∧ select_streams_apply cW7 [4] = cW7
    ∧ cW7.acceptable_streams [] = Except.ok true :=
  ⟨(c7_selection_validation cW7 [3]).2.2 rfl,
   (c7_selection_validation cW7 [9]).2.1
     "This contaner does not contain a stream with index 9" rfl,
   (c7_selection_validation cW7 [4]).2.1
     "filmalize cannot output streams of type data" rfl,
   (c7_selection_validation cW7 []).1.mpr (by simp)⟩

/-! Characterisation of the default stream selection, for C9. -/

theorem default_streams_loop_nil_iff (streams : List Stream) :
    ∀ a v : Bool,
      (default_streams_loop streams a v = [] ↔
        ∀ s ∈ streams, (!a && (s.type == "audio")) = false
          ∧ (!v && (s.type == "video")) = false) := by
  induction streams with
  | nil => intro a v; simp [default_streams_loop]
  | cons s rest ih =>
    intro a v
    by_cases h1 : (!a && (s.type == "audio")) = true
    · simp only [default_streams_loop, if_pos h1]
      constructor
      · intro h
        exact List.noConfusion h
      · intro h
        have := (h s (by simp)).1
        rw [h1] at this
        exact Bool.noConfusion this
    · have h1f : (!a && (s.type == "audio")) = false := by
        revert h1
        cases (!a && (s.type == "audio")) <;> simp
      by_cases h2 : (!v && (s.type == "video")) = true
      · simp only [default_streams_loop, if_neg h1, if_pos h2]
        constructor
        · intro h
          exact List.noConfusion h
        · intro h
          have := (h s (by simp)).2
          rw [h2] at this
          exact Bool.noConfusion this
      · have h2f : (!v && (s.type == "video")) = false := by
          revert h2
          cases (!v && (s.type == "video")) <;> simp
        simp only [default_streams_loop, if_neg h1, if_neg h2]
        rw [ih a v]
        constructor
        · intro h
          intro x hx
          rcases List.mem_cons.mp hx with rfl | hx
          · exact ⟨h1f, h2f⟩
          · exact h x hx
        · intro h x hx
          exact h x (by simp [hx])

theorem find?_cons_pos {α : Type} (p : α → Bool) (a : α) (l : List α) (h : p a = true) :
    (a :: l).find? p = some a := by
  simp [List.find?, h]

theorem find?_cons_neg {α : Type} (p : α → Bool) (a : α) (l : List α) (h : p a = false) :
    (a :: l).find? p = l.find? p := by
  simp [List.find?, h]

theorem mem_default_streams_loop (streams : List Stream) :
    ∀ (a v : Bool) (i : Int),
      i ∈ default_streams_loop streams a v ↔
        ((a = false ∧ (streams.find? (fun s => s.type == "audio")).map Stream.index = some i)
         ∨ (v = false ∧ (streams.find? (fun s => s.type == "video")).map Stream.index
              = some i)) := by
  induction streams with
  | nil => intro a v i; simp [default_streams_loop]
  | cons s rest ih =>
    intro a v i
    by_cases h1 : (!a && (s.type == "audio")) = true
    · have ha : a = false := by
        revert h1
        cases a <;> simp
      have haud : (s.type == "audio") = true := by
        revert h1
        cases (s.type == "audio") <;> simp
      have hvid : (s.type == "video") = false := by
        rw [beq_iff_eq] at haud
        rw [haud]
        rfl
      simp only [default_streams_loop, if_pos h1, List.mem_cons]
      rw [ih true v i]
      rw [find?_cons_pos (fun s => s.type == "audio") s rest haud,
        find?_cons_neg (fun s => s.type == "video") s rest hvid]
      subst ha
      simp [eq_comm]
    · have h1f : (!a && (s.type == "audio")) = false := by
        revert h1
        cases (!a && (s.type == "audio")) <;> simp
      by_cases h2 : (!v && (s.type == "video")) = true
      · have hv : v = false := by
          revert h2
          cases v <;> simp
        have hvid : (s.type == "video") = true := by
          revert h2
          cases (s.type == "video") <;> simp
        have haud : (s.type == "audio") = false := by
          rw [beq_iff_eq] at hvid
          rw [hvid]
          rfl
        simp only [default_streams_loop, if_neg h1, if_pos h2, List.mem_cons]
        rw [ih a true i]
        rw [find?_cons_pos (fun s => s.type == "video") s rest hvid,
        find?_cons_neg (fun s => s.type == "audio") s rest haud]
        subst hv
        constructor
        · rintro (rfl | ⟨ha2, hA⟩ | ⟨hcontra, _⟩)
          · exact Or.inr ⟨rfl, rfl⟩
          · exact Or.inl ⟨ha2, hA⟩
          · exact absurd hcontra (by simp)
        · rintro (⟨ha2, hA⟩ | ⟨_, hB⟩)
          · exact Or.inr (Or.inl ⟨ha2, hA⟩)
          · have hsi : s.index = i := by simpa using hB
            exact Or.inl hsi.symm
      · have h2f : (!v && (s.type == "video")) = false := by
          revert h2
          cases (!v && (s.type == "video")) <;> simp
        simp only [default_streams_loop, if_neg h1, if_neg h2]
        rw [ih a v i]
        by_cases haud : (s.type == "audio") = true
        · have ha : a = true := by
            revert h1f
            rw [haud]
            cases a <;> simp
          have hvid : (s.type == "video") = false := by
            rw [beq_iff_eq] at haud
            rw [haud]
            rfl
          rw [find?_cons_pos (fun s => s.type == "audio") s rest haud,
        find?_cons_neg (fun s => s.type == "video") s rest hvid]
          subst ha
          simp
        · have haudf : (s.type == "audio") = false := by
            revert haud
            cases (s.type == "audio") <;> simp
          by_cases hvid : (s.type == "video") = true
          · have hv : v = true := by
              revert h2f
              rw [hvid]
              cases v <;> simp
            rw [find?_cons_pos (fun s => s.type == "video") s rest hvid,
          find?_cons_neg (fun s => s.type == "audio") s rest haudf]
            subst hv
            simp
          · have hvidf : (s.type == "video") = false := by
              revert hvid
              cases (s.type == "video") <;> simp
            rw [find?_cons_neg (fun s => s.type == "audio") s rest haudf,
          find?_cons_neg (fun s => s.type == "video") s rest hvidf]

/-- Claim C9: passing an explicitly empty selected list to the Container
constructor does not produce an empty selection: the falsy empty list
triggers the default, exactly as an omitted argument does, so selected
becomes the indexes of the first audio and first video stream
encountered in streams order, and is empty only when the container has
neither an audio nor a video stream. -/
theorem c9_empty_selection_defaults (file : String) (dur : Rat) (streams : List Stream)
    (subs : Option (List SubtitleFile)) (out : Option String) (tmp : String) :
    (Container.init file dur streams subs (some []) out tmp).selected
        = default_streams streams
    ∧ (Container.init file dur streams subs (some []) out tmp).selected
        = (Container.init file dur streams subs none out tmp).selected
    ∧ (default_streams streams = [] ↔
        ∀ s ∈ streams, s.type ≠ "audio" ∧ s.type ≠ "video")
    ∧ (∀ i : Int, i ∈ default_streams streams ↔
        ((streams.find? (fun s => s.type == "audio")).map Stream.index = some i
         ∨ (streams.find? (fun s => s.type == "video")).map Stream.index = some i)) := by
  refine ⟨rfl, rfl, ?_, ?_⟩
  · unfold default_streams
    rw [default_streams_loop_nil_iff streams false false]
    constructor
    · intro h s hs
      have := h s hs
      simp only [Bool.not_false, Bool.true_and] at this
      exact ⟨by simpa using this.1, by simpa using this.2⟩
    · intro h s hs
      have := h s hs
      simp only [Bool.not_false, Bool.true_and]
      exact ⟨by simpa using this.1, by simpa using this.2⟩
  · intro i
    unfold default_streams
    rw [mem_default_streams_loop streams false false i]
    simp

/-- Witness: C9 on a container with an audio stream before a video
stream; the empty selection argument yields both their indexes. -/
theorem c9_empty_selection_witness :
    (Container.init "f.mkv" 10 [sAudioVorbis, sVideoVp8] none (some []) none "tmp").selected
      = default_streams [sAudioVorbis, sVideoVp8]
    ∧ (default_streams [sAudioVorbis, sVideoVp8] = [] ↔
        ∀ s ∈ [sAudioVorbis, sVideoVp8], s.type ≠ "audio" ∧ s.type ≠ "video") :=
  ⟨(c9_empty_selection_defaults "f.mkv" 10 [sAudioVorbis, sVideoVp8] none none "tmp").1,
   (c9_empty_selection_defaults "f.mkv" 10 [sAudioVorbis, sVideoVp8] none none "tmp").2.2.1⟩

/-! Counter bookkeeping facts, for C2. -/

theorem filter_cons_pos {α : Type} (p : α → Bool) (a : α) (l : List α) (h : p a = true) :
    (a :: l).filter p = a :: l.filter p := by
  simp [List.filter, h]

theorem filter_cons_neg {α : Type} (p : α → Bool) (a : α) (l : List α) (h : p a = false) :
    (a :: l).filter p = l.filter p := by
  simp [List.filter, h]

theorem Counters.bump_audio_of_ne (cnt : Counters) (t : String) (h : t ≠ "audio") :
    (cnt.bump t).audio = cnt.audio := by
  unfold Counters.bump
  split_ifs with h1 h2 h3 <;> first | rfl | exact absurd h2 h

theorem Counters.bump_audio_eq (cnt : Counters) (t : String) (h : t = "audio") :
    (cnt.bump t).audio = cnt.audio + 1 := by
  subst h
  rfl

/-- The selected-audio predicate of the filter used to state C2. -/
def isSelAudio (sel : List Int) (s : Stream) : Bool :=
  decide (s.index ∈ sel) && (s.type == "audio")

theorem compileStreams_one_audio (streams : List Stream) :
    ∀ (sel : List Int) (cnt : Counters) (toks : List String) (strs : List Stream)
      (cnt2 : Counters) (a : Stream),
      streams.filter (isSelAudio sel) = [a] →
      compileStreams streams sel cnt = some (toks, strs, cnt2) →
      ∃ pre post, toks = pre ++ (a.build_options cnt.audio).1 ++ post := by
  induction streams with
  | nil =>
    intro sel cnt toks strs cnt2 a hf h
    simp at hf
  | cons s rest ih =>
    intro sel cnt toks strs cnt2 a hf h
    rw [compileStreams] at h
    by_cases hsel : s.index ∈ sel
    · rw [if_pos hsel] at h
      by_cases haud : (s.type == "audio") = true
      · have hfs : isSelAudio sel s = true := by simp [isSelAudio, hsel, haud]
        rw [filter_cons_pos (isSelAudio sel) s rest hfs] at hf
        simp only [List.cons.injEq] at hf
        obtain ⟨rfl, hrest⟩ := hf
        have hty : s.type = "audio" := beq_iff_eq.mp haud
        have hget : Counters.get cnt s.type = some cnt.audio := by rw [hty]; rfl
        rw [hget] at h
        cases hrec : compileStreams rest sel (cnt.bump s.type) with
        | none => rw [hrec] at h; simp at h
        | some r =>
          obtain ⟨toksr, strsr, cntr⟩ := r
          rw [hrec] at h
          simp only [Option.some.injEq, Prod.mk.injEq] at h
          refine ⟨[], toksr, ?_⟩
          rw [← h.1]
          simp
      · have haudf : (s.type == "audio") = false := by
          revert haud
          cases (s.type == "audio") <;> simp
        have hfs : isSelAudio sel s = false := by simp [isSelAudio, haudf]
        rw [filter_cons_neg (isSelAudio sel) s rest hfs] at hf
        cases hget : Counters.get cnt s.type with
        | none => rw [hget] at h; simp at h
        | some n =>
          rw [hget] at h
          cases hrec : compileStreams rest sel (cnt.bump s.type) with
          | none => rw [hrec] at h; simp at h
          | some r =>
            obtain ⟨toksr, strsr, cntr⟩ := r
            rw [hrec] at h
            simp only [Option.some.injEq, Prod.mk.injEq] at h
            have hbu : (cnt.bump s.type).audio = cnt.audio :=
              Counters.bump_audio_of_ne cnt s.type
                (fun he => by rw [he] at haudf; simp at haudf)
            obtain ⟨pre, post, hpre⟩ := ih sel (cnt.bump s.type) toksr strsr cntr a hf hrec
            rw [hbu] at hpre
            refine ⟨(s.build_options n).1 ++ pre, post, ?_⟩
            rw [← h.1, hpre]
            simp [List.append_assoc]
    · rw [if_neg hsel] at h
      have hfs : isSelAudio sel s = false := by simp [isSelAudio, hsel]
      rw [filter_cons_neg (isSelAudio sel) s rest hfs] at hf
      cases hrec : compileStreams rest sel cnt with
      | none => rw [hrec] at h; simp at h
      | some r =>
        obtain ⟨toksr, strsr, cntr⟩ := r
        rw [hrec] at h
        simp only [Option.some.injEq, Prod.mk.injEq] at h
        obtain ⟨pre, post, hpre⟩ := ih sel cnt toksr strsr cntr a hf hrec
        exact ⟨pre, post, by rw [← h.1, hpre]⟩

theorem compileStreams_two_audio (streams : List Stream) :
    ∀ (sel : List Int) (cnt : Counters) (toks : List String) (strs : List Stream)
      (cnt2 : Counters) (a1 a2 : Stream),
      streams.filter (isSelAudio sel) = [a1, a2] →
      compileStreams streams sel cnt = some (toks, strs, cnt2) →
      ∃ pre mid post,
        toks = pre ++ (a1.build_options cnt.audio).1 ++ mid
          ++ (a2.build_options (cnt.audio + 1)).1 ++ post := by
  induction streams with
  | nil =>
    intro sel cnt toks strs cnt2 a1 a2 hf h
    simp at hf
  | cons s rest ih =>
    intro sel cnt toks strs cnt2 a1 a2 hf h
    rw [compileStreams] at h
    by_cases hsel : s.index ∈ sel
    · rw [if_pos hsel] at h
      by_cases haud : (s.type == "audio") = true
      · have hfs : isSelAudio sel s = true := by simp [isSelAudio, hsel, haud]
        rw [filter_cons_pos (isSelAudio sel) s rest hfs] at hf
        simp only [List.cons.injEq] at hf
        obtain ⟨rfl, hrest⟩ := hf
        have hty : s.type = "audio" := beq_iff_eq.mp haud
        have hget : Counters.get cnt s.type = some cnt.audio := by rw [hty]; rfl
        rw [hget] at h
        cases hrec : compileStreams rest sel (cnt.bump s.type) with
        | none => rw [hrec] at h; simp at h
        | some r =>
          obtain ⟨toksr, strsr, cntr⟩ := r
          rw [hrec] at h
          simp only [Option.some.injEq, Prod.mk.injEq] at h
          have hbu : (cnt.bump s.type).audio = cnt.audio + 1 :=
            Counters.bump_audio_eq cnt s.type hty
          obtain ⟨pre2, post2, hpre2⟩ :=
            compileStreams_one_audio rest sel (cnt.bump s.type) toksr strsr cntr a2 hrest hrec
          rw [hbu] at hpre2
          refine ⟨[], pre2, post2, ?_⟩
          rw [← h.1, hpre2]
          simp [List.append_assoc]
      · have haudf : (s.type == "audio") = false := by
          revert haud
          cases (s.type == "audio") <;> simp
        have hfs : isSelAudio sel s = false := by simp [isSelAudio, haudf]
        rw [filter_cons_neg (isSelAudio sel) s rest hfs] at hf
        cases hget : Counters.get cnt s.type with
        | none => rw [hget] at h; simp at h
        | some n =>
          rw [hget] at h
          cases hrec : compileStreams rest sel (cnt.bump s.type) with
          | none => rw [hrec] at h; simp at h
          | some r =>
            obtain ⟨toksr, strsr, cntr⟩ := r
            rw [hrec] at h
            simp only [Option.some.injEq, Prod.mk.injEq] at h
            have hbu : (cnt.bump s.type).audio = cnt.audio :=
              Counters.bump_audio_of_ne cnt s.type
                (fun he => by rw [he] at haudf; simp at haudf)
            obtain ⟨pre, mid, post, hpre⟩ :=
              ih sel (cnt.bump s.type) toksr strsr cntr a1 a2 hf hrec
            rw [hbu] at hpre
            refine ⟨(s.build_options n).1 ++ pre, mid, post, ?_⟩
            rw [← h.1, hpre]
            simp [List.append_assoc]
    · rw [if_neg hsel] at h
      have hfs : isSelAudio sel s = false := by simp [isSelAudio, hsel]
      rw [filter_cons_neg (isSelAudio sel) s rest hfs] at hf
      cases hrec : compileStreams rest sel cnt with
      | none => rw [hrec] at h; simp at h
      | some r =>
        obtain ⟨toksr, strsr, cntr⟩ := r
        rw [hrec] at h
        simp only [Option.some.injEq, Prod.mk.injEq] at h
        obtain ⟨pre, mid, post, hpre⟩ := ih sel cnt toksr strsr cntr a1 a2 hf hrec
        exact ⟨pre, mid, post, by rw [← h.1, hpre]⟩

theorem audio_build_options_head (s : Stream) (k : Int) (h : s.type = "audio") :
    (s.build_options k).1.head? = some ("-c:a:" ++ intStr k) := by
  obtain ⟨i, t, cd, cc, cb, lb, o⟩ := s
  subst h
  unfold Stream.build_options
  split
  next hcontra => exact absurd hcontra (by simp)
  next =>
    split
    next =>
      split
      next => rfl
      next => rfl
    next hcontra => exact absurd rfl hcontra

theorem exists_sandwich {A C : List String} {d : String}
    {toks pre mid post x1 x2 : List String}
    (h : toks = pre ++ x1 ++ mid ++ x2 ++ post) :
    ((A ++ toks) ++ C) ++ [d]
      = (A ++ pre) ++ x1 ++ mid ++ x2 ++ ((post ++ C) ++ [d]) := by
  subst h
  simp [List.append_assoc]

/-- Claim C2: in a container holding one video stream and two audio
streams with both audio streams selected, build_command compiles the two
audio streams with independent per-kind output slots: the first audio
stream in streams order is compiled at audio slot 0 and the second at
audio slot 1, so their codec directives start with -c:a:0 and -c:a:1
respectively and never share slot 0. -/
theorem c2_per_kind_output_slots (c : Container) (p : List String × Container)
    (a1 a2 v : Stream)
    (haud : c.streams.filter (fun s => s.type == "audio") = [a1, a2])
    (hvid : c.streams.filter (fun s => s.type == "video") = [v])
    (hsel1 : a1.index ∈ c.selected) (hsel2 : a2.index ∈ c.selected)
    (hcmd : c.build_command = some p) :
    (∃ pre mid post,
      p.1 = pre ++ (a1.build_options 0).1 ++ mid ++ (a2.build_options 1).1 ++ post)
    ∧ (a1.build_options 0).1.head? = some "-c:a:0"
    ∧ (a2.build_options 1).1.head? = some "-c:a:1"
    ∧ ("-c:a:0" : String) ≠ "-c:a:1" := by
  have ha1mem : a1 ∈ c.streams.filter (fun s => s.type == "audio") := by rw [haud]; simp
  have ha2mem : a2 ∈ c.streams.filter (fun s => s.type == "audio") := by rw [haud]; simp
  have hty1 : a1.type = "audio" := beq_iff_eq.mp (List.mem_filter.mp ha1mem).2
  have hty2 : a2.type = "audio" := beq_iff_eq.mp (List.mem_filter.mp ha2mem).2
  have hfeq : c.streams.filter (isSelAudio c.selected) = [a1, a2] := by
    rw [← haud]
    apply List.filter_congr
    intro x hx
    by_cases hxa : (x.type == "audio") = true
    · have hxmem : x ∈ c.streams.filter (fun s => s.type == "audio") :=
        List.mem_filter.mpr ⟨hx, hxa⟩
      rw [haud] at hxmem
      simp only [List.mem_cons, List.not_mem_nil, or_false] at hxmem
      rcases hxmem with rfl | rfl
      · simp [isSelAudio, hsel1, hxa]
      · simp [isSelAudio, hsel2, hxa]
    · have hxf : (x.type == "audio") = false := by
        revert hxa
        cases (x.type == "audio") <;> simp
      simp [isSelAudio, hxf]
  simp only [Container.build_command] at hcmd
  cases hcs : compileStreams c.streams c.selected ⟨0, 0, 0⟩ with
  | none => rw [hcs] at hcmd; simp at hcmd
  | some r =>
    obtain ⟨streamToks, streams2, cnt⟩ := r
    rw [hcs] at hcmd
    simp only [Option.some.injEq] at hcmd
    obtain ⟨pre, mid, post, htoks⟩ :=
      compileStreams_two_audio c.streams c.selected ⟨0, 0, 0⟩ streamToks streams2 cnt
        a1 a2 hfeq hcs
    have h0 : ((⟨0, 0, 0⟩ : Counters).audio) = (0 : Int) := rfl
    rw [h0, show ((0 : Int) + 1) = 1 from rfl] at htoks
    have hp1 : p.1 = _ := congrArg Prod.fst hcmd.symm
    have hex : ∃ pre2 mid2 post2,
        p.1 = pre2 ++ (a1.build_options 0).1 ++ mid2 ++ (a2.build_options 1).1 ++ post2 := by
      rw [hp1]
      exact ⟨_, mid, _, exists_sandwich htoks⟩
    exact ⟨hex, audio_build_options_head a1 0 hty1,
      audio_build_options_head a2 1 hty2, by decide⟩

def vW2 : Stream := ⟨0, "video", "h264", none, none, emptyLabel, none⟩

def a1W2 : Stream := ⟨1, "audio", "aac", none, none, emptyLabel, none⟩

def a2W2 : Stream := ⟨2, "audio", "mp3", none, none, emptyLabel, none⟩

/-- A container with one video stream and two audio streams, all
selected. -/
def cW2 : Container :=
  { file_name := "m.mkv"
    duration := 8
    streams := [vW2, a1W2, a2W2]
    subtitle_files := []
    selected := [0, 1, 2]
    output_name := "m.mp4"
    microseconds := 8000000
    temp_file_name := "t2" }

def pW2 : List String × Container := cW2.build_command.getD ([], cW2)

/-- Witness: C2 on a concrete two-audio, one-video container. -/
theorem c2_per_kind_output_slots_witness :
    (∃ pre mid post,
      pW2.1 = pre ++ (a1W2.build_options 0).1 ++ mid ++ (a2W2.build_options 1).1 ++ post)
    ∧ (a1W2.build_options 0).1.head? = some "-c:a:0"
    ∧ (a2W2.build_options 1).1.head? = some "-c:a:1"
    ∧ ("-c:a:0" : String) ≠ "-c:a:1" :=
  c2_per_kind_output_slots cW2 pW2 a1W2 a2W2 vW2 rfl rfl (by decide) (by decide) rfl

/-! Structural facts about build_options, for C8 and C10: the mutation
only touches option_summary, the summary does not depend on the output
number, and recompiling an already-compiled stream yields the same tokens
and the same stream. -/

theorem build_options_snd (s : Stream) (n : Int) :
    (s.build_options n).2
      = { s with option_summary := (s.build_options n).2.option_summary } := by
  obtain ⟨i, t, cd, cc, cb, lb, o⟩ := s
  unfold Stream.build_options
  split_ifs <;> rfl

theorem build_options_index (s : Stream) (n : Int) :
    (s.build_options n).2.index = s.index := by
  obtain ⟨i, t, cd, cc, cb, lb, o⟩ := s
  unfold Stream.build_options
  split_ifs <;> rfl

theorem build_options_type (s : Stream) (n : Int) :
    (s.build_options n).2.type = s.type := by
  obtain ⟨i, t, cd, cc, cb, lb, o⟩ := s
  unfold Stream.build_options
  split_ifs <;> rfl

theorem build_options_num_snd (s : Stream) (n : Int) :
    (s.build_options n).2 = (s.build_options 0).2 := by
  obtain ⟨i, t, cd, cc, cb, lb, o⟩ := s
  unfold Stream.build_options
  split_ifs <;> rfl

theorem build_options_idem (s : Stream) (n : Int) :
    ((s.build_options n).2).build_options n
      = ((s.build_options n).1, (s.build_options n).2) := by
  obtain ⟨i, t, cd, cc, cb, lb, o⟩ := s
  by_cases ht : t = "video"
  · by_cases htr : (truthy cc || cd != C_VIDEO) = true
    · simp [Stream.build_options, ht, htr]
    · have htrf : (truthy cc || cd != C_VIDEO) = false := by
        revert htr
        cases (truthy cc || cd != C_VIDEO) <;> simp
      simp [Stream.build_options, ht, htrf]
  · by_cases ha : t = "audio"
    · by_cases htr : (truthy cb || cd != C_AUDIO) = true
      · simp [Stream.build_options, ht, ha, htr]
      · have htrf : (truthy cb || cd != C_AUDIO) = false := by
          revert htr
          cases (truthy cb || cd != C_AUDIO) <;> simp
        simp [Stream.build_options, ht, ha, htrf]
    · by_cases hs : t = "subtitle"
      · simp [Stream.build_options, ht, ha, hs]
      · simp [Stream.build_options, ht, ha, hs]

theorem compileStreams_idem (streams : List Stream) :
    ∀ sel cnt toks strs cnt2,
      compileStreams streams sel cnt = some (toks, strs, cnt2) →
      compileStreams strs sel cnt = some (toks, strs, cnt2) := by
  induction streams with
  | nil =>
    intro sel cnt toks strs cnt2 h
    simp [compileStreams] at h
    rw [h.1, h.2.1, h.2.2]
    rfl
  | cons s rest ih =>
    intro sel cnt toks strs cnt2 h
    rw [compileStreams] at h
    by_cases hsel : s.index ∈ sel
    · rw [if_pos hsel] at h
      cases hget : Counters.get cnt s.type with
      | none => rw [hget] at h; simp at h
      | some n =>
        rw [hget] at h
        cases hrec : compileStreams rest sel (cnt.bump s.type) with
        | none => rw [hrec] at h; simp at h
        | some r =>
          obtain ⟨toksr, strsr, cntr⟩ := r
          rw [hrec] at h
          simp only [Option.some.injEq, Prod.mk.injEq] at h
          obtain ⟨htoks, hstrs, hcnt⟩ := h
          subst htoks
          subst hcnt
          rw [← hstrs]
          rw [compileStreams]
          rw [if_pos (by rw [build_options_index]; exact hsel)]
          rw [show Counters.get cnt (s.build_options n).2.type = some n by
            rw [build_options_type]; exact hget]
          rw [show Counters.bump cnt (s.build_options n).2.type = Counters.bump cnt s.type by
            rw [build_options_type]]
          rw [ih sel (cnt.bump s.type) toksr strsr cntr hrec]
          simp [build_options_idem s n]
    · rw [if_neg hsel] at h
      cases hrec : compileStreams rest sel cnt with
      | none => rw [hrec] at h; simp at h
      | some r =>
        obtain ⟨toksr, strsr, cntr⟩ := r
        rw [hrec] at h
        simp only [Option.some.injEq, Prod.mk.injEq] at h
        obtain ⟨htoks, hstrs, hcnt⟩ := h
        subst htoks
        subst hcnt
        rw [← hstrs]
        rw [compileStreams]
        rw [if_neg hsel]
        rw [ih sel cnt toksr strsr cntr hrec]

/-- Claim C8: build_command is deterministic and repeatable: when a call
succeeds, calling it again on the container it returned (whose only
change is the rewritten option summaries) yields exactly the same token
list and the same container. -/
theorem c8_build_command_idempotent (c : Container) (p : List String × Container)
    (h : c.build_command = some p) :
    p.2.build_command = some (p.1, p.2) := by
  simp only [Container.build_command] at h
  cases hcs : compileStreams c.streams c.selected ⟨0, 0, 0⟩ with
  | none => rw [hcs] at h; simp at h
  | some r =>
    obtain ⟨toks, strs, cnt⟩ := r
    rw [hcs] at h
    simp only [Option.some.injEq] at h
    have hidem := compileStreams_idem c.streams c.selected ⟨0, 0, 0⟩ toks strs cnt hcs
    rw [← h]
    simp only [Container.build_command]
    rw [hidem]

def pC8 : List String × Container := cOutOfOrder.build_command.getD ([], cOutOfOrder)

/-- Witness: C8 on a concrete container. -/
theorem c8_build_command_idempotent_witness :
    pC8.2.build_command = some (pC8.1, pC8.2) :=
  c8_build_command_idempotent cOutOfOrder pC8 rfl

theorem compileStreams_strs (streams : List Stream) :
    ∀ sel cnt toks strs cnt2,
      compileStreams streams sel cnt = some (toks, strs, cnt2) →
      strs = streams.map
        (fun s => if s.index ∈ sel then (s.build_options 0).2 else s) := by
  induction streams with
  | nil =>
    intro sel cnt toks strs cnt2 h
    simp [compileStreams] at h
    rw [h.2.1]
    rfl
  | cons s rest ih =>
    intro sel cnt toks strs cnt2 h
    rw [compileStreams] at h
    by_cases hsel : s.index ∈ sel
    · rw [if_pos hsel] at h
      cases hget : Counters.get cnt s.type with
      | none => rw [hget] at h; simp at h
      | some n =>
        rw [hget] at h
        cases hrec : compileStreams rest sel (cnt.bump s.type) with
        | none => rw [hrec] at h; simp at h
        | some r =>
          obtain ⟨toksr, strsr, cntr⟩ := r
          rw [hrec] at h
          simp only [Option.some.injEq, Prod.mk.injEq] at h
          rw [← h.2.1]
          rw [List.map_cons, if_pos hsel]
          rw [← build_options_num_snd s n]
          rw [ih sel (cnt.bump s.type) toksr strsr cntr hrec]
    · rw [if_neg hsel] at h
      cases hrec : compileStreams rest sel cnt with
      | none => rw [hrec] at h; simp at h
      | some r =>
        obtain ⟨toksr, strsr, cntr⟩ := r
        rw [hrec] at h
        simp only [Option.some.injEq, Prod.mk.injEq] at h
        rw [← h.2.1]
        rw [List.map_cons, if_neg hsel]
        rw [ih sel cnt toksr strsr cntr hrec]

/-- Claim C10: a successful build_command leaves every field of the
container unchanged (file name, duration, subtitle files, selection,
output name, microseconds, temp file) except that each selected stream
has its option_summary overwritten with the summary of its compiled
action; unselected streams are untouched and no other stream field is
modified. -/
theorem c10_build_command_frame (c : Container) (p : List String × Container)
    (h : c.build_command = some p) :
    p.2.file_name = c.file_name
    ∧ p.2.duration = c.duration
    ∧ p.2.subtitle_files = c.subtitle_files
    ∧ p.2.selected = c.selected
    ∧ p.2.output_name = c.output_name
    ∧ p.2.microseconds = c.microseconds
    ∧ p.2.temp_file_name = c.temp_file_name
    ∧ p.2.streams = c.streams.map
        (fun s => if s.index ∈ c.selected
          then { s with option_summary := (s.build_options 0).2.option_summary }
          else s) := by
  simp only [Container.build_command] at h
  cases hcs : compileStreams c.streams c.selected ⟨0, 0, 0⟩ with
  | none => rw [hcs] at h; simp at h
  | some r =>
    obtain ⟨toks, strs, cnt⟩ := r
    rw [hcs] at h
    simp only [Option.some.injEq] at h
    rw [← h]
    refine ⟨rfl, rfl, rfl, rfl, rfl, rfl, rfl, ?_⟩
    have hstrs := compileStreams_strs c.streams c.selected ⟨0, 0, 0⟩ toks strs cnt hcs
    show strs = _
    rw [hstrs]
    apply List.map_congr_left
    intro s _
    by_cases hsel : s.index ∈ c.selected
    · rw [if_pos hsel, if_pos hsel]
      exact build_options_snd s 0
    · rw [if_neg hsel, if_neg hsel]

/-- Witness: C10 on a concrete two-audio, one-video container. -/
theorem c10_build_command_frame_witness :
    pW2.2.file_name = cW2.file_name
    ∧ pW2.2.duration = cW2.duration
    ∧ pW2.2.subtitle_files = cW2.subtitle_files
    ∧ pW2.2.selected = cW2.selected
    ∧ pW2.2.output_name = cW2.output_name
    ∧ pW2.2.microseconds = cW2.microseconds
    ∧ pW2.2.temp_file_name = cW2.temp_file_name
    ∧ pW2.2.streams = cW2.streams.map
        (fun s => if s.index ∈ cW2.selected
          then { s with option_summary := (s.build_options 0).2.option_summary }
          else s) :=
  c10_build_command_frame cW2 pW2 rfl

end Filmalize
